import Mathlib

/-!
# Verification of the Worksection MCP request transport and authentication layer

Shallow embedding of `src/worksectionClient.ts` (class `WorksectionClient`) and
the attachment-preparation portion of the `post_task` tool handler in
`src/index.ts`.  JavaScript strings are Lean `String`s, `Buffer`s are
`List Nat` (byte lists), objects with insertion-ordered string keys are
association lists, and the Node library functions the client calls out to
(`crypto.createHash('md5')`, `fetch`, `Buffer.from(·, 'base64')`) are
explicit function parameters of the model, so every theorem quantifies over
their behaviour.  Numeric parameter values are modelled as integers (the
claims under verification never exercise non-integral numbers).
-/

namespace Worksection

/-- `const ADMIN_PATH = 'api/admin/v2'` in `worksectionClient.ts`. -/
def ADMIN_PATH : String := "api/admin/v2"

/-- `type Primitive = string | number | boolean`. -/
inductive Primitive where
  | str (s : String)
  | num (n : Int)
  | bool (b : Bool)
deriving DecidableEq

/-- `type ParamValue = Primitive | Primitive[] | null | undefined`.
`null` and `undefined` behave identically in `appendParam`, so both are
modelled by the single constructor `nullish`. -/
inductive ParamValue where
  | prim (p : Primitive)
  | list (items : List Primitive)
  | nullish
deriving DecidableEq

/-- `export type RequestParams = Record<string, ParamValue>`: an object with
string keys iterated in insertion order by `Object.entries`. -/
def RequestParams := List (String × ParamValue)

/-- `coerceToString` in `worksectionClient.ts`: booleans encode as `"1"`/`"0"`,
anything else via JavaScript `String(value)`. -/
def coerceToString : Primitive → String
  | .bool b => if b then "1" else "0"
  | .str s => s
  | .num n => toString n

/-- Upper-case hexadecimal digit, as produced by the WHATWG
`application/x-www-form-urlencoded` percent-encoder. -/
def hexDigitChar (n : Nat) : Char :=
  if n < 10 then Char.ofNat (48 + n) else Char.ofNat (55 + n)

/-- Percent-encoding of one byte under the
`application/x-www-form-urlencoded` serializer used by
`URLSearchParams.toString()`: ASCII alphanumerics and `*`, `-`, `.`, `_`
pass through, space becomes `+`, every other byte becomes `%XX`. -/
def formEncodeByte (b : Nat) : String :=
  if b = 32 then "+"
  else if (48 ≤ b ∧ b ≤ 57) ∨ (65 ≤ b ∧ b ≤ 90) ∨ (97 ≤ b ∧ b ≤ 122)
      ∨ b = 42 ∨ b = 45 ∨ b = 46 ∨ b = 95 then
    String.singleton (Char.ofNat b)
  else
    "%" ++ String.singleton (hexDigitChar (b / 16)) ++ String.singleton (hexDigitChar (b % 16))

/-- Form-url-encoding of a string: percent-encode each byte of its UTF-8
serialization. -/
def formEncode (s : String) : String :=
  String.join ((s.toUTF8.data.toList).map fun b => formEncodeByte b.toNat)

/-- `URLSearchParams.toString()` on a list of (name, value) pairs held in
append order: `encode(name)=encode(value)` joined with `&`. -/
def serializeForm (pairs : List (String × String)) : String :=
  String.intercalate "&" (pairs.map fun kv => formEncode kv.1 ++ "=" ++ formEncode kv.2)

/-- The inner `appendParam` closure of `buildParamState`, reified as the list
of `(name, value)` pairs it appends to `encoded`: null/undefined append
nothing, an array appends one pair per element under `key[index]`, and a
primitive appends `(key, coerceToString value)`.  The source's recursive call
`appendParam(`key[index]`, item)` receives `item : Primitive`, so it always
takes the primitive branch; that single level is inlined here to keep the
definition structurally recursive. -/
def appendParamPairs (key : String) : ParamValue → List (String × String)
  | .nullish => []
  | .list items =>
    items.enum.flatMap fun iv =>
      [(key ++ "[" ++ toString iv.1 ++ "]", coerceToString iv.2)]
  | .prim p => [(key, coerceToString p)]

/-- The full append-order contents of `encoded` in `buildParamState`:
`appendParam('action', action)` followed by `appendParam(key, value)` for
each entry of `params` in iteration order. -/
def canonicalPairs (action : String) (params : RequestParams) : List (String × String) :=
  appendParamPairs "action" (.prim (.str action))
    ++ params.flatMap fun kv => appendParamPairs kv.1 kv.2

/-- `buildParamState` in `worksectionClient.ts`: returns the pair list held by
the `URLSearchParams` (`encoded`) together with `raw = encoded.toString()`. -/
def buildParamState (action : String) (params : RequestParams) :
    List (String × String) × String :=
  let encoded := canonicalPairs action params
  (encoded, serializeForm encoded)

example : formEncode "a b[0]" = "a+b%5B0%5D" := rfl
example :
    canonicalPairs "get_projects" [("filter", .prim (.str "active")), ("x", .nullish)]
      = [("action", "get_projects"), ("filter", "active")] := rfl
example :
    appendParamPairs "tags" (.list [.str "a", .str "b"])
      = [("tags[0]", "a"), ("tags[1]", "b")] := rfl

/-- `WorksectionConfig` from `config.ts`: account base URL, secret API key and
the optional process-wide bearer token for remote attachment fetches. -/
structure Config where
  accountUrl : String
  apiKey : String
  slackBotToken : Option String
deriving DecidableEq

/-- JavaScript truthiness of an optional string (`undefined` and the empty
string are falsy). -/
def strTruthy : Option String → Bool
  | some s => s != ""
  | none => false

/-- Parsed JSON values, the result of `response.json()`.  Numbers are
modelled as integers; object fields keep their order, and `JSON.parse`
never produces duplicate keys, so lookup of the first match is exact. -/
inductive Json where
  | null
  | str (s : String)
  | num (n : Int)
  | bool (b : Bool)
  | arr (elems : List Json)
  | obj (fields : List (String × Json))

/-- JavaScript property access `json.key` on a parsed object: `none` models
`undefined` (absent key or non-object receiver). -/
def Json.getField : Json → String → Option Json
  | .obj fields, key => fields.lookup key
  | _, _ => none

/-- JavaScript truthiness of a property-access result: `undefined`, `null`,
`""`, `0` and `false` are falsy; arrays and objects are always truthy. -/
def jsTruthy : Option Json → Bool
  | none => false
  | some .null => false
  | some (.str s) => s != ""
  | some (.num n) => n != 0
  | some (.bool b) => b
  | some (.arr _) => true
  | some (.obj _) => true

mutual

/-- JavaScript `String(value)` coercion as used by template-literal
interpolation (arrays join their elements with `,`, plain objects print as
`[object Object]`). -/
def jsToString : Json → String
  | .null => "null"
  | .str s => s
  | .num n => toString n
  | .bool b => if b then "true" else "false"
  | .arr elems => String.intercalate "," (jsToStringList elems)
  | .obj _ => "[object Object]"

/-- Pointwise `jsToString` over the elements of a JSON array. -/
def jsToStringList : List Json → List String
  | [] => []
  | j :: rest => jsToString j :: jsToStringList rest

end

/-- `WorksectionApiError` from `worksectionClient.ts`: a message plus the
optional `statusCode` constructor argument (kept as the raw JSON value the
code passes, `none` when the argument is omitted/undefined). -/
structure WorksectionApiError where
  message : String
  statusCode : Option Json

/-- `AttachmentInput` from `worksectionClient.ts`. -/
structure AttachmentInput where
  field : String
  filename : String
  contentType : Option String
  data : Option (List Nat)
  sourceUrl : Option String
deriving DecidableEq

/-- `AttachmentPayload` from `worksectionClient.ts` (the resolved form handed
to multipart assembly). -/
structure AttachmentPayload where
  field : String
  filename : String
  data : List Nat
  contentType : Option String
deriving DecidableEq

/-- Outcome of one `fetch` of an attachment URL, supplied by the environment:
either the promise rejects (network failure) or a response with a status,
status text and body bytes arrives. -/
inductive FetchOutcome where
  | netError (msg : String)
  | response (status : Nat) (statusText : String) (body : List Nat)
deriving DecidableEq

/-- Record of one outgoing attachment fetch: the URL and the headers sent. -/
structure FetchEvent where
  url : String
  headers : List (String × String)
deriving DecidableEq

/-- `response.ok` in the Fetch API: status in the inclusive range 200–299. -/
def statusOk (status : Nat) : Bool :=
  200 ≤ status && status ≤ 299

/-- `fetchRemoteAttachment` from `worksectionClient.ts`: one GET to the URL,
with an `Authorization: Bearer` header exactly when a (truthy) bearer token
is configured; a rejected fetch, a non-ok status or an empty body each throw
a `WorksectionApiError`.  Returns the thrown-or-resolved result together
with the fetch event it issued. -/
def fetchRemoteAttachment (cfg : Config) (oracle : String → FetchOutcome)
    (url : String) : Except WorksectionApiError (List Nat) × FetchEvent :=
  let headers : List (String × String) :=
    if strTruthy cfg.slackBotToken then
      [("Authorization", "Bearer " ++ cfg.slackBotToken.getD "")]
    else []
  let event : FetchEvent := { url := url, headers := headers }
  match oracle url with
  | .netError msg =>
    (.error ⟨"Failed to download attachment from " ++ url ++ ": " ++ msg, none⟩, event)
  | .response status statusText body =>
    if !statusOk status then
      (.error ⟨"Downloading attachment failed (" ++ toString status ++ "): " ++ statusText,
        none⟩, event)
    else if body.length = 0 then
      (.error ⟨"Attachment at " ++ url ++ " is empty.", none⟩, event)
    else
      (.ok body, event)

/-- The loop body of `prepareAttachments`, processing descriptors in order:
a descriptor with (truthy) `data` and `sourceUrl` both set throws before any
fetch for it; otherwise the buffer is the inline data or, failing that, the
remote fetch result; a descriptor resolving to no buffer throws; a resolved
buffer becomes a fresh `AttachmentPayload` whose `contentType` is set only
when truthy.  The first thrown error aborts the rest of the loop.  The
second component collects the attachment fetches issued, in order. -/
def prepareAttachmentsGo (cfg : Config) (oracle : String → FetchOutcome) :
    List AttachmentInput →
      Except WorksectionApiError (List AttachmentPayload) × List FetchEvent
  | [] => (.ok [], [])
  | a :: rest =>
    if a.data.isSome && strTruthy a.sourceUrl then
      (.error ⟨"Attachment \"" ++ a.filename ++ "\" cannot define both data and sourceUrl.",
        none⟩, [])
    else
      let step : Except WorksectionApiError (Option (List Nat)) × List FetchEvent :=
        match a.data with
        | some b => (.ok (some b), [])
        | none =>
          if strTruthy a.sourceUrl then
            match fetchRemoteAttachment cfg oracle (a.sourceUrl.getD "") with
            | (.ok b, ev) => (.ok (some b), [ev])
            | (.error e, ev) => (.error e, [ev])
          else (.ok none, [])
      match step with
      | (.error e, evs) => (.error e, evs)
      | (.ok none, evs) =>
        (.error ⟨"Attachment \"" ++ a.filename
          ++ "\" must include base64 data or a download URL (sourceUrl).", none⟩, evs)
      | (.ok (some buffer), evs) =>
        let payload : AttachmentPayload :=
          { field := a.field, filename := a.filename, data := buffer,
            contentType := if strTruthy a.contentType then a.contentType else none }
        match prepareAttachmentsGo cfg oracle rest with
        | (.ok payloads, evs2) => (.ok (payload :: payloads), evs ++ evs2)
        | (.error e, evs2) => (.error e, evs ++ evs2)

/-- `prepareAttachments` from `worksectionClient.ts`: an absent or empty
descriptor list resolves to no payloads without any fetch. -/
def prepareAttachments (cfg : Config) (oracle : String → FetchOutcome) :
    Option (List AttachmentInput) →
      Except WorksectionApiError (List AttachmentPayload) × List FetchEvent
  | none => (.ok [], [])
  | some attachments => prepareAttachmentsGo cfg oracle attachments

/-- The HTTP methods the client supports (`method?: 'GET' | 'POST'`). -/
inductive Method where
  | GET
  | POST
deriving DecidableEq

/-- One binary part of a multipart body: `form.append(field, blob, filename)`
with the blob's type defaulted to `application/octet-stream` and its bytes a
copy of the payload's buffer. -/
structure Part where
  field : String
  filename : String
  contentType : String
  data : List Nat
deriving DecidableEq

/-- The body of the outgoing request: a URL-encoded string or a `FormData`
whose append order is all signed key/value fields first, then the binary
parts. -/
inductive RequestBody where
  | urlencoded (s : String)
  | multipart (fields : List (String × String)) (parts : List Part)
deriving DecidableEq

/-- The outgoing request `call` hands to `fetch`: method, endpoint (the
account URL with `ADMIN_PATH` resolved against it; `config.ts` normalizes
the account URL to end with `/`, under which the resolution is string
concatenation), its query string (`endpoint.search`), headers and body. -/
structure Request where
  method : Method
  url : String
  search : String
  headers : List (String × String)
  body : Option RequestBody
deriving DecidableEq

/-- Lines 47–50 of `call`: the contents of `encoded` after
`encoded.append('hash', hash)`, where `hash` is the digest of
`raw + this.config.apiKey` and `raw = encoded.toString()` was taken before
the append.  `digest` models `crypto.createHash('md5').update(·).digest('hex')`,
the 128-bit hash the remote scheme prescribes. -/
def signedEncoded (cfg : Config) (digest : String → String) (action : String)
    (params : RequestParams) : List (String × String) :=
  let state := buildParamState action params
  state.1 ++ [("hash", digest (state.2 ++ cfg.apiKey))]

/-- Lines 42–90 of `call` in `worksectionClient.ts`, from resolved
attachments to the request handed to `fetch`: force POST when attachments
are present, build and sign the canonical query, put it in the URL for GET
or multipart requests, and choose the body/headers per method. -/
def assembleRequest (cfg : Config) (digest : String → String) (action : String)
    (reqMethod : Option Method) (params : RequestParams)
    (attachments : List AttachmentPayload) : Request :=
  let hasAttachments := attachments.length > 0
  let method := if hasAttachments then Method.POST else reqMethod.getD .GET
  let encoded := signedEncoded cfg digest action params
  let url := cfg.accountUrl ++ ADMIN_PATH
  let search := if method = .GET ∨ hasAttachments then serializeForm encoded else ""
  let baseHeaders : List (String × String) := [("Accept", "application/json")]
  if method = .GET then
    { method := method, url := url, search := search, headers := baseHeaders, body := none }
  else if hasAttachments then
    { method := method, url := url, search := search, headers := baseHeaders,
      body := some (.multipart encoded (attachments.map fun a =>
        { field := a.field, filename := a.filename,
          contentType := a.contentType.getD "application/octet-stream",
          data := a.data })) }
  else
    { method := method, url := url, search := search,
      headers := baseHeaders ++ [("Content-Type", "application/x-www-form-urlencoded")],
      body := some (.urlencoded (serializeForm encoded)) }

/-- Outcome of the main API `fetch`, supplied by the environment: a rejected
promise (network failure) or a response with an HTTP status, status text and
parsed JSON body. -/
inductive ApiOutcome where
  | netError (msg : String)
  | response (status : Nat) (statusText : String) (body : Json)

/-- `json.status === 'ok'`: the envelope's `status` field must be exactly the
string `"ok"`. -/
def isOkStatus (body : Json) : Bool :=
  match body.getField "status" with
  | some (.str s) => s == "ok"
  | _ => false

/-- Lines 131–143 of `call`: the application-error message, starting from
`json.message ?? 'Worksection API returned an error'` and appending the
field-validation detail and the trimmed expected-format hint when those
fields are truthy. -/
def apiErrorMessage (body : Json) : String :=
  let base :=
    match body.getField "message" with
    | none => "Worksection API returned an error"
    | some .null => "Worksection API returned an error"
    | some j => jsToString j
  let withDetails :=
    if jsTruthy (body.getField "message_details") then
      base ++ " (field: " ++ jsToString ((body.getField "message_details").getD .null) ++ ")"
    else base
  if jsTruthy (body.getField "test") then
    withDetails ++ ". Expected format: "
      ++ (jsToString ((body.getField "test").getD .null)).trim
  else withDetails

/-- Lines 92–147 of `call`: a rejected `fetch` throws the transport error, a
non-ok HTTP status throws the HTTP error carrying the numeric status, an
envelope whose `status` is not `"ok"` throws the application error carrying
`json.status_code`, and otherwise the parsed envelope is returned as is. -/
def interpretResponse : ApiOutcome → Except WorksectionApiError Json
  | .netError msg => .error ⟨"Failed to reach Worksection API: " ++ msg, none⟩
  | .response status statusText body =>
    if !statusOk status then
      .error ⟨"Worksection API HTTP " ++ toString status ++ ": " ++ statusText,
        some (.num status)⟩
    else if isOkStatus body then
      .ok body
    else
      .error ⟨apiErrorMessage body, body.getField "status_code"⟩

/-- `CallOptions` from `worksectionClient.ts` (all fields optional). -/
structure CallOptions where
  method : Option Method
  params : Option RequestParams
  attachments : Option (List AttachmentInput)

/-- One outgoing network interaction of a `call` invocation, in order: the
attachment fetches issued while resolving descriptors, then (at most once)
the signed API request handed to `fetch`. -/
inductive NetEvent where
  | attachmentFetch (event : FetchEvent)
  | apiRequest (request : Request)

/-- `prepareParams`: `{...(params ?? {})}`, a shallow copy of the caller's
parameter entries (the copy is value-identical to the original). -/
def prepareParams (params : Option RequestParams) : RequestParams :=
  params.getD []

/-- The whole of `call` in `worksectionClient.ts` as a function of the
environment: resolve attachments (aborting, with only the fetches issued so
far, when that throws), shallow-copy the parameters, assemble and sign the
request, issue it, and interpret the response.  The second component is the
ordered list of network interactions the invocation performed. -/
def callModel (cfg : Config) (digest : String → String)
    (fetchOracle : String → FetchOutcome) (apiOracle : Request → ApiOutcome)
    (action : String) (options : CallOptions) :
    Except WorksectionApiError Json × List NetEvent :=
  match prepareAttachments cfg fetchOracle options.attachments with
  | (.error e, evs) => (.error e, evs.map .attachmentFetch)
  | (.ok attachments, evs) =>
    let params := prepareParams options.params
    let request := assembleRequest cfg digest action options.method params attachments
    (interpretResponse (apiOracle request),
      evs.map .attachmentFetch ++ [.apiRequest request])

/-! ## The `post_task` tool handler (`src/index.ts`, attachment preparation)

The handler throws plain `Error`s; like `WorksectionApiError`s thrown by the
client they surface to the caller as a message with no status code, so the
same error structure models both. -/

/-- One attachment argument of the `post_task` tool
(`attachmentSchema` in `index.ts`). -/
structure ToolAttachmentArg where
  filename : String
  data : Option String
  sourceUrl : Option String
  contentType : Option String
deriving DecidableEq

/-- The body of `args.attachments.map((attachment, index) => ...)` in the
`post_task` handler (lines 1226–1264 of `index.ts`): when `attachment.data`
is truthy, decode it as base64 (`decode` models `Buffer.from(·, 'base64')`,
`none` modelling a thrown decode error) and reject an empty result; build
the `AttachmentInput` with field `attach[index]`, the filename, the
content type when truthy, and the decoded buffer or else the source URL;
with neither, throw. -/
def postTaskAttachmentAt (decode : String → Option (List Nat)) (index : Nat)
    (attachment : ToolAttachmentArg) : Except WorksectionApiError AttachmentInput := do
  let buffer : Option (List Nat) ←
    if strTruthy attachment.data then
      match decode (attachment.data.getD "") with
      | none =>
        .error ⟨"Attachment \"" ++ attachment.filename ++ "\" data must be valid base64.",
          none⟩
      | some b =>
        if b.length = 0 then
          .error ⟨"Attachment \"" ++ attachment.filename
            ++ "\" is empty or not valid base64 data.", none⟩
        else
          .ok (some b)
    else
      .ok none
  let base : AttachmentInput :=
    { field := "attach[" ++ toString index ++ "]",
      filename := attachment.filename,
      contentType := if strTruthy attachment.contentType then attachment.contentType else none,
      data := none,
      sourceUrl := none }
  match buffer with
  | some b => .ok { base with data := some b }
  | none =>
    if strTruthy attachment.sourceUrl then
      .ok { base with sourceUrl := attachment.sourceUrl }
    else
      .error ⟨"Attachment \"" ++ attachment.filename
        ++ "\" requires base64 data or sourceUrl.", none⟩

/-- `args.attachments.map(...)` over the whole list: the callback runs in
order and its first thrown error aborts the map. -/
def postTaskAttachmentsGo (decode : String → Option (List Nat)) (index : Nat) :
    List ToolAttachmentArg → Except WorksectionApiError (List AttachmentInput)
  | [] => .ok []
  | a :: rest => do
    let p ← postTaskAttachmentAt decode index a
    let ps ← postTaskAttachmentsGo decode (index + 1) rest
    .ok (p :: ps)

/-- Lines 1224–1276 of the `post_task` handler: map the tool's attachment
arguments (only when the list is non-empty), then invoke
`client.call('post_task', callOptions)` where `callOptions` carries the
params and, exactly when mapped attachments exist, `method: 'POST'` and the
attachments.  A throw during mapping aborts before any network activity. -/
def postTaskModel (cfg : Config) (digest : String → String)
    (fetchOracle : String → FetchOutcome) (apiOracle : Request → ApiOutcome)
    (params : RequestParams) (attachmentArgs : Option (List ToolAttachmentArg))
    (decode : String → Option (List Nat)) :
    Except WorksectionApiError Json × List NetEvent :=
  let prepared : Except WorksectionApiError (Option (List AttachmentInput)) :=
    match attachmentArgs with
    | none => .ok none
    | some l =>
      if l.length > 0 then (postTaskAttachmentsGo decode 0 l).map some else .ok none
  match prepared with
  | .error e => (.error e, [])
  | .ok attachments =>
    let callOptions : CallOptions :=
      match attachments with
      | some l =>
        if l.length > 0 then
          { method := some .POST, params := some params, attachments := some l }
        else
          { method := none, params := some params, attachments := none }
      | none => { method := none, params := some params, attachments := none }
    callModel cfg digest fetchOracle apiOracle "post_task" callOptions

/-! ## Heap view of `call`

To state that `call` never mutates its caller-supplied inputs, the mutable
JavaScript objects the caller hands in are given explicit addresses in a
store: the params object, the attachments array, and each attachment
descriptor object.  `callModelH` is `call` translated over this store; every
property read of a caller object becomes a store lookup, and the single
object allocation that copies caller state (`{...(params ?? {})}` in
`prepareParams`) becomes an append of a fresh cell.  The source contains no
assignment to any caller-supplied object, so the translation contains no
store update at an existing address. -/

/-- The caller-visible object store: params objects, attachment arrays
(holding descriptor addresses) and attachment descriptor objects. -/
structure Heap where
  paramObjs : List RequestParams
  attachArrs : List (List Nat)
  attachObjs : List AttachmentInput

/-- Placeholder for a dangling descriptor address (never reached for
well-formed callers; kept total so the theorems need no validity
hypotheses). -/
def defaultAttachment : AttachmentInput :=
  { field := "", filename := "", contentType := none, data := none, sourceUrl := none }

/-- Dereference one attachment descriptor address. -/
def Heap.readAttachment (h : Heap) (addr : Nat) : AttachmentInput :=
  (h.attachObjs[addr]?).getD defaultAttachment

/-- Dereference the caller's optional params-object address. -/
def Heap.readParams (h : Heap) (addr : Option Nat) : Option RequestParams :=
  addr.map fun a => (h.paramObjs[a]?).getD []

/-- Dereference the caller's optional attachments-array address down to the
descriptor values it holds. -/
def Heap.readAttachArr (h : Heap) (addr : Option Nat) : Option (List AttachmentInput) :=
  addr.map fun a => ((h.attachArrs[a]?).getD []).map h.readAttachment

/-- The `prepareAttachments` loop over descriptor addresses: identical to
`prepareAttachmentsGo` except that each descriptor is read from the store,
which is threaded through unchanged (the loop allocates only local payload
values and never assigns to a descriptor). -/
def prepareAttachmentsGoH (cfg : Config) (oracle : String → FetchOutcome) (h : Heap) :
    List Nat →
      (Except WorksectionApiError (List AttachmentPayload) × List FetchEvent) × Heap
  | [] => ((.ok [], []), h)
  | addr :: rest =>
    let a := h.readAttachment addr
    if a.data.isSome && strTruthy a.sourceUrl then
      ((.error ⟨"Attachment \"" ++ a.filename ++ "\" cannot define both data and sourceUrl.",
        none⟩, []), h)
    else
      let step : Except WorksectionApiError (Option (List Nat)) × List FetchEvent :=
        match a.data with
        | some b => (.ok (some b), [])
        | none =>
          if strTruthy a.sourceUrl then
            match fetchRemoteAttachment cfg oracle (a.sourceUrl.getD "") with
            | (.ok b, ev) => (.ok (some b), [ev])
            | (.error e, ev) => (.error e, [ev])
          else (.ok none, [])
      match step with
      | (.error e, evs) => ((.error e, evs), h)
      | (.ok none, evs) =>
        ((.error ⟨"Attachment \"" ++ a.filename
          ++ "\" must include base64 data or a download URL (sourceUrl).", none⟩, evs), h)
      | (.ok (some buffer), evs) =>
        let payload : AttachmentPayload :=
          { field := a.field, filename := a.filename, data := buffer,
            contentType := if strTruthy a.contentType then a.contentType else none }
        match prepareAttachmentsGoH cfg oracle h rest with
        | ((.ok payloads, evs2), h2) => ((.ok (payload :: payloads), evs ++ evs2), h2)
        | ((.error e, evs2), h2) => ((.error e, evs ++ evs2), h2)

/-- `call` over the explicit store: resolve the attachments read from the
caller's array, then (on the non-throwing path) allocate the fresh shallow
copy of the caller's params object, read the copy back, and assemble, sign
and issue the request from it. -/
def callModelH (cfg : Config) (digest : String → String)
    (fetchOracle : String → FetchOutcome) (apiOracle : Request → ApiOutcome)
    (action : String) (method : Option Method) (h : Heap)
    (paramsAddr : Option Nat) (attachmentsAddr : Option Nat) :
    (Except WorksectionApiError Json × List NetEvent) × Heap :=
  let fetched :=
    match attachmentsAddr with
    | none => ((Except.ok [], []), h)
    | some arr => prepareAttachmentsGoH cfg fetchOracle h ((h.attachArrs[arr]?).getD [])
  match fetched with
  | ((.error e, evs), h1) => ((.error e, evs.map .attachmentFetch), h1)
  | ((.ok attachments, evs), h1) =>
    let entries :=
      match paramsAddr with
      | some a => (h1.paramObjs[a]?).getD []
      | none => []
    let h2 : Heap := { h1 with paramObjs := h1.paramObjs ++ [entries] }
    let copyAddr := h1.paramObjs.length
    let params := (h2.paramObjs[copyAddr]?).getD []
    let request := assembleRequest cfg digest action method params attachments
    ((interpretResponse (apiOracle request),
      evs.map .attachmentFetch ++ [.apiRequest request]), h2)

/-! ## Theorems -/

/-- Flattening a map-to-singleton is a map. -/
theorem flatMap_singleton_eq_map {α β : Type} (l : List α) (f : α → β) :
    (l.flatMap fun x => [f x]) = l.map f := by
  induction l with
  | nil => rfl
  | cons a l ih => simp [List.flatMap_cons, ih]

/-- **C1**: for every action name and parameter map, the authentication
digest is the 128-bit hash (the `digest` parameter models MD5) of the
canonical query string concatenated with the secret API key, where the
canonical query string is the `key=value` pairs joined with `&` with each
component url-encoded; the hash field is not part of the digest input — the
input is built from the pre-hash canonical pairs only — and the hash is
appended as the final field after the digest is computed. -/
theorem claim_C1_signing (cfg : Config) (md5hex : String → String)
    (action : String) (params : RequestParams) :
    (buildParamState action params).2
        = String.intercalate "&" ((canonicalPairs action params).map
            fun kv => formEncode kv.1 ++ "=" ++ formEncode kv.2)
      ∧ (buildParamState action params).1 = canonicalPairs action params
      ∧ signedEncoded cfg md5hex action params
          = canonicalPairs action params
            ++ [("hash", md5hex ((buildParamState action params).2 ++ cfg.apiKey))] :=
  ⟨rfl, rfl, rfl⟩

/-- **C2**: the canonical query starts with the action pair and then follows
the parameters in insertion order; null/undefined values are omitted, `true`
encodes to `"1"` and `false` to `"0"`, strings and numbers encode to their
string representation, and a list value is emitted as one pair per element
under bracket-indexed keys — in particular `tags = ["a","b"]` becomes
`tags[0]=a`, `tags[1]=b`, never a single joined value. -/
theorem claim_C2_encoding (action : String) (params : RequestParams) (key s : String)
    (n : Int) (items : List Primitive) :
    canonicalPairs action params
        = ("action", action) :: params.flatMap (fun kv => appendParamPairs kv.1 kv.2)
      ∧ appendParamPairs key .nullish = []
      ∧ appendParamPairs key (.prim (.bool true)) = [(key, "1")]
      ∧ appendParamPairs key (.prim (.bool false)) = [(key, "0")]
      ∧ appendParamPairs key (.prim (.str s)) = [(key, s)]
      ∧ appendParamPairs key (.prim (.num n)) = [(key, toString n)]
      ∧ appendParamPairs key (.list items)
          = items.enum.map
              (fun iv => (key ++ "[" ++ toString iv.1 ++ "]", coerceToString iv.2))
      ∧ appendParamPairs "tags" (.list [.str "a", .str "b"])
          = [("tags[0]", "a"), ("tags[1]", "b")] := by
  refine ⟨rfl, rfl, rfl, rfl, rfl, rfl, ?_, rfl⟩
  exact flatMap_singleton_eq_map _ _

/-- **C3**: with at least one attachment the outgoing request is a multipart
POST regardless of the requested method; with zero attachments the caller's
method is honored (default GET), GET carrying the encoded and signed
parameters in the URL query string with no body, and POST without
attachments carrying them in a URL-encoded body with the
`application/x-www-form-urlencoded` content-type header. -/
theorem claim_C3_method_selection (cfg : Config) (digest : String → String)
    (action : String) (reqMethod : Option Method) (params : RequestParams)
    (attachments : List AttachmentPayload) :
    (attachments ≠ [] →
      (assembleRequest cfg digest action reqMethod params attachments).method = .POST
        ∧ ∃ parts, (assembleRequest cfg digest action reqMethod params attachments).body
            = some (.multipart (signedEncoded cfg digest action params) parts))
    ∧ (attachments = [] →
      (assembleRequest cfg digest action reqMethod params attachments).method
        = reqMethod.getD .GET)
    ∧ (attachments = [] → reqMethod.getD .GET = .GET →
      (assembleRequest cfg digest action reqMethod params attachments).search
          = serializeForm (signedEncoded cfg digest action params)
        ∧ (assembleRequest cfg digest action reqMethod params attachments).body = none)
    ∧ (attachments = [] → reqMethod = some .POST →
      (assembleRequest cfg digest action reqMethod params attachments).body
          = some (.urlencoded (serializeForm (signedEncoded cfg digest action params)))
        ∧ ("Content-Type", "application/x-www-form-urlencoded")
            ∈ (assembleRequest cfg digest action reqMethod params attachments).headers) := by
  refine ⟨fun h => ?_, fun h => ?_, fun h hm => ?_, fun h hm => ?_⟩
  · have hl : 0 < attachments.length := List.length_pos.mpr h
    refine ⟨?_, ?_⟩
    · simp [assembleRequest, hl]
    · exact ⟨attachments.map fun a =>
        ⟨a.field, a.filename, a.contentType.getD "application/octet-stream", a.data⟩,
        by simp [assembleRequest, hl]⟩
  · subst h
    rcases reqMethod with _ | m
    · rfl
    · cases m <;> rfl
  · subst h
    rcases reqMethod with _ | m
    · exact ⟨rfl, rfl⟩
    · cases m
      · exact ⟨rfl, rfl⟩
      · exact absurd hm (by decide)
  · subst h hm
    exact ⟨rfl, by simp [assembleRequest]⟩

/-- Witness for C3 at concrete inputs: one attachment forces a multipart
POST even though GET was requested; the same call with no attachments and
`method: 'POST'` produces a URL-encoded body with the matching header, and
with no method requested it defaults to a bodiless GET. -/
theorem claim_C3_method_selection_witness :
    ((assembleRequest ⟨"https://acme.worksection.com/", "secret", none⟩ (fun r => r)
        "post_task" (some .GET) [("id_project", .prim (.str "7"))]
        [⟨"attach[0]", "f.bin", [1, 2], none⟩]).method = .POST
      ∧ ∃ parts,
        (assembleRequest ⟨"https://acme.worksection.com/", "secret", none⟩ (fun r => r)
          "post_task" (some .GET) [("id_project", .prim (.str "7"))]
          [⟨"attach[0]", "f.bin", [1, 2], none⟩]).body
            = some (.multipart
                (signedEncoded ⟨"https://acme.worksection.com/", "secret", none⟩ (fun r => r)
                  "post_task" [("id_project", .prim (.str "7"))]) parts))
    ∧ ((assembleRequest ⟨"https://acme.worksection.com/", "secret", none⟩ (fun r => r)
        "post_task" (some .POST) [("id_project", .prim (.str "7"))] []).body
          = some (.urlencoded
              (serializeForm (signedEncoded ⟨"https://acme.worksection.com/", "secret", none⟩
                (fun r => r) "post_task" [("id_project", .prim (.str "7"))])))
      ∧ ("Content-Type", "application/x-www-form-urlencoded")
          ∈ (assembleRequest ⟨"https://acme.worksection.com/", "secret", none⟩ (fun r => r)
              "post_task" (some .POST) [("id_project", .prim (.str "7"))] []).headers)
    ∧ (assembleRequest ⟨"https://acme.worksection.com/", "secret", none⟩ (fun r => r)
        "post_task" none [("id_project", .prim (.str "7"))] []).method = .GET := by
  refine ⟨?_, ?_, ?_⟩
  · exact (claim_C3_method_selection _ _ _ _ _ _).1 (by simp)
  · exact (claim_C3_method_selection _ _ _ _ _ _).2.2.2 rfl rfl
  · exact (claim_C3_method_selection _ _ _ _ _ _).2.1 rfl

/-- **C4**: a non-2xx HTTP status always raises an HTTP error carrying the
numeric status, regardless of body content; a 2xx response whose envelope
status is not the success sentinel raises an application error whose message
concatenates, in priority order, the envelope's message, the
field-validation detail and the expected-format hint; in particular HTTP 200
with `{"status":"error","message":"Field is required","message_details":"filter"}`
produces an error whose text contains both `"Field is required"` and
`"filter"`.  The two conditions are checked independently. -/
theorem claim_C4_error_layers (status : Nat) (statusText : String) (body : Json)
    (m d t : String) :
    (¬ (200 ≤ status ∧ status ≤ 299) →
      interpretResponse (.response status statusText body)
        = .error ⟨"Worksection API HTTP " ++ toString status ++ ": " ++ statusText,
            some (.num status)⟩)
    ∧ ((200 ≤ status ∧ status ≤ 299) → d ≠ "" → t ≠ "" →
      interpretResponse (.response status statusText
          (.obj [("status", .str "error"), ("message", .str m),
                 ("message_details", .str d), ("test", .str t)]))
        = .error ⟨m ++ " (field: " ++ d ++ ")" ++ ". Expected format: " ++ t.trim, none⟩)
    ∧ interpretResponse (.response 200 "OK"
          (.obj [("status", .str "error"), ("message", .str "Field is required"),
                 ("message_details", .str "filter")]))
        = .error ⟨"Field is required (field: filter)", none⟩
    ∧ List.IsInfix "Field is required".toList "Field is required (field: filter)".toList
    ∧ List.IsInfix "filter".toList "Field is required (field: filter)".toList := by
  refine ⟨fun h => ?_, fun h hd ht => ?_, rfl, by decide, by decide⟩
  · have hs : statusOk status = false := by
      simp only [statusOk, Bool.and_eq_false_iff, decide_eq_false_iff_not]
      omega
    simp [interpretResponse, hs]
  · have hs : statusOk status = true := by
      simp only [statusOk, Bool.and_eq_true, decide_eq_true_eq]
      exact h
    have hdet : jsTruthy (Json.getField
        (Json.obj [("status", .str "error"), ("message", .str m),
          ("message_details", .str d), ("test", .str t)]) "message_details") = true := by
      show (d != "") = true
      simpa using hd
    have htest : jsTruthy (Json.getField
        (Json.obj [("status", .str "error"), ("message", .str m),
          ("message_details", .str d), ("test", .str t)]) "test") = true := by
      show (t != "") = true
      simpa using ht
    simp [interpretResponse, hs, apiErrorMessage, hdet, htest]
    rfl

/-- Witness for C4: an HTTP 500 response raises the HTTP error carrying 500
even though its envelope claims success, and an HTTP 200 envelope error
concatenates message, field detail and format hint in order. -/
theorem claim_C4_error_layers_witness :
    interpretResponse (.response 500 "Internal Server Error" (.obj [("status", .str "ok")]))
        = .error ⟨"Worksection API HTTP 500: Internal Server Error", some (.num 500)⟩
      ∧ interpretResponse (.response 200 "OK"
            (.obj [("status", .str "error"), ("message", .str "Field is required"),
                   ("message_details", .str "filter"), ("test", .str "active")]))
          = .error ⟨"Field is required" ++ " (field: " ++ "filter" ++ ")"
              ++ ". Expected format: " ++ "active".trim, none⟩ := by
  constructor
  · exact (claim_C4_error_layers 500 "Internal Server Error"
      (.obj [("status", .str "ok")]) "" "" "").1 (by omega)
  · exact (claim_C4_error_layers 200 "OK" .null
      "Field is required" "filter" "active").2.1 (by omega) (by decide) (by decide)

/-- **C6**: `status === "ok"` is the only success sentinel — the envelope
succeeds exactly when its `status` field is the string `"ok"`, any other
value or a missing field raising an error — and on success `call` returns
the parsed envelope object unmodified. -/
theorem claim_C6_success_sentinel (status : Nat) (statusText : String) (body : Json)
    (cfg : Config) (digest : String → String) (fOracle : String → FetchOutcome)
    (m : Option Method) (ps : Option RequestParams) (action : String) :
    (isOkStatus body = true ↔ body.getField "status" = some (.str "ok"))
      ∧ (statusOk status = true → isOkStatus body = true →
          interpretResponse (.response status statusText body) = .ok body)
      ∧ (statusOk status = true → isOkStatus body = false →
          interpretResponse (.response status statusText body)
            = .error ⟨apiErrorMessage body, body.getField "status_code"⟩)
      ∧ (statusOk status = true → isOkStatus body = true →
          (callModel cfg digest fOracle (fun r => .response status statusText body)
              action ⟨m, ps, none⟩).1 = .ok body) := by
  refine ⟨?_, fun hs hok => ?_, fun hs hok => ?_, fun hs hok => ?_⟩
  · unfold isOkStatus
    rcases hg : body.getField "status" with _ | j
    · simp
    · cases j <;> simp
  · simp [interpretResponse, hs, hok]
  · simp [interpretResponse, hs, hok]
  · simp [callModel, prepareAttachments, prepareParams, interpretResponse, hs, hok]

/-- Witness for C6: a 200 response with `status: "ok"` returns the whole
envelope (the `data` payload still inside), one with `status: "done"` and
one with no `status` field at all both raise errors. -/
theorem claim_C6_success_sentinel_witness :
    (callModel ⟨"https://acme.worksection.com/", "secret", none⟩ (fun r => r)
        (fun u => .netError "unused")
        (fun r => .response 200 "OK" (.obj [("status", .str "ok"), ("data", .arr [.num 1])]))
        "get_projects" ⟨none, some [("filter", .prim (.str "active"))], none⟩).1
      = .ok (.obj [("status", .str "ok"), ("data", .arr [.num 1])])
    ∧ interpretResponse (.response 200 "OK" (.obj [("status", .str "done")]))
        = .error ⟨apiErrorMessage (.obj [("status", .str "done")]),
            Json.getField (.obj [("status", .str "done")]) "status_code"⟩
    ∧ interpretResponse (.response 200 "OK" (.obj [("data", .arr [])]))
        = .error ⟨apiErrorMessage (.obj [("data", .arr [])]),
            Json.getField (.obj [("data", .arr [])]) "status_code"⟩ := by
  refine ⟨?_, ?_, ?_⟩
  · exact (claim_C6_success_sentinel 200 "OK"
      (.obj [("status", .str "ok"), ("data", .arr [.num 1])])
      ⟨"https://acme.worksection.com/", "secret", none⟩ (fun r => r)
      (fun u => .netError "unused") none (some [("filter", .prim (.str "active"))])
      "get_projects").2.2.2 rfl rfl
  · exact (claim_C6_success_sentinel 200 "OK" (.obj [("status", .str "done")])
      ⟨"", "", none⟩ (fun r => r) (fun u => .netError "") none none "x").2.2.1 rfl rfl
  · exact (claim_C6_success_sentinel 200 "OK" (.obj [("data", .arr [])])
      ⟨"", "", none⟩ (fun r => r) (fun u => .netError "") none none "x").2.2.1 rfl rfl

/-- A prefix of descriptors that all carry inline data (and no truthy source
URL) resolves without issuing any fetch, so an error raised further down the
list propagates unchanged. -/
theorem prepareAttachmentsGo_inline_prefix (cfg : Config)
    (oracle : String → FetchOutcome) (pre : List AttachmentInput)
    (hpre : ∀ a ∈ pre, a.data.isSome = true ∧ strTruthy a.sourceUrl = false)
    (l : List AttachmentInput) (e : WorksectionApiError) (evs : List FetchEvent)
    (hl : prepareAttachmentsGo cfg oracle l = (.error e, evs)) :
    prepareAttachmentsGo cfg oracle (pre ++ l) = (.error e, evs) := by
  induction pre with
  | nil => simpa using hl
  | cons a pre ih =>
    have ha := hpre a (by simp)
    obtain ⟨b, hb⟩ := Option.isSome_iff_exists.mp ha.1
    have ih' := ih fun x hx => hpre x (by simp [hx])
    simp only [List.cons_append, prepareAttachmentsGo, hb, ha.2, Bool.and_false,
      Bool.false_eq_true, if_false]
    rw [show pre.append l = pre ++ l from rfl, ih']
    simp

/-- **C5**: an attachment descriptor that sets both inline data and a remote
URL makes `call` raise the caller error naming it, and one that sets neither
also raises a caller error; in both cases — the preceding descriptors being
inline ones — the failure is detected before signing and the invocation
performs no network interaction at all (no attachment fetch, no API
request). -/
theorem claim_C5_attachment_exclusivity (cfg : Config) (digest : String → String)
    (fOracle : String → FetchOutcome) (aOracle : Request → ApiOutcome)
    (action : String) (m : Option Method) (ps : Option RequestParams)
    (pre : List AttachmentInput) (bad : AttachmentInput) (rest : List AttachmentInput)
    (hpre : ∀ a ∈ pre, a.data.isSome = true ∧ strTruthy a.sourceUrl = false) :
    (bad.data.isSome = true → strTruthy bad.sourceUrl = true →
      callModel cfg digest fOracle aOracle action ⟨m, ps, some (pre ++ bad :: rest)⟩
        = (.error ⟨"Attachment \"" ++ bad.filename
            ++ "\" cannot define both data and sourceUrl.", none⟩, []))
    ∧ (bad.data = none → strTruthy bad.sourceUrl = false →
      callModel cfg digest fOracle aOracle action ⟨m, ps, some (pre ++ bad :: rest)⟩
        = (.error ⟨"Attachment \"" ++ bad.filename
            ++ "\" must include base64 data or a download URL (sourceUrl).", none⟩, [])) := by
  constructor
  · intro hdata hsrc
    have hbad : prepareAttachmentsGo cfg fOracle (bad :: rest)
        = (.error ⟨"Attachment \"" ++ bad.filename
            ++ "\" cannot define both data and sourceUrl.", none⟩, []) := by
      simp [prepareAttachmentsGo, hdata, hsrc]
    have hall := prepareAttachmentsGo_inline_prefix cfg fOracle pre hpre _ _ _ hbad
    simp [callModel, prepareAttachments, hall]
  · intro hdata hsrc
    have hbad : prepareAttachmentsGo cfg fOracle (bad :: rest)
        = (.error ⟨"Attachment \"" ++ bad.filename
            ++ "\" must include base64 data or a download URL (sourceUrl).", none⟩, []) := by
      simp [prepareAttachmentsGo, hdata, hsrc]
    have hall := prepareAttachmentsGo_inline_prefix cfg fOracle pre hpre _ _ _ hbad
    simp [callModel, prepareAttachments, hall]

/-- Witness for C5: a lone descriptor with both inline bytes and a source
URL, and a lone descriptor with neither, each abort the call with the
respective caller error and an empty network trace. -/
theorem claim_C5_attachment_exclusivity_witness :
    callModel ⟨"https://acme.worksection.com/", "secret", none⟩ (fun r => r)
        (fun u => .netError "unreachable") (fun r => .netError "unreachable")
        "post_task" ⟨some .POST, some [("id_project", .prim (.str "7"))],
          some [⟨"attach[0]", "a.png", none, some [7], some "https://files.example.com/a.png"⟩]⟩
      = (.error ⟨"Attachment \"a.png\" cannot define both data and sourceUrl.", none⟩, [])
    ∧ callModel ⟨"https://acme.worksection.com/", "secret", none⟩ (fun r => r)
        (fun u => .netError "unreachable") (fun r => .netError "unreachable")
        "post_task" ⟨some .POST, some [("id_project", .prim (.str "7"))],
          some [⟨"attach[0]", "b.png", none, none, none⟩]⟩
      = (.error ⟨"Attachment \"b.png\" must include base64 data or a download URL (sourceUrl).",
          none⟩, []) := by
  constructor
  · have h := (claim_C5_attachment_exclusivity ⟨"https://acme.worksection.com/", "secret", none⟩
      (fun r => r) (fun u => .netError "unreachable") (fun r => .netError "unreachable")
      "post_task" (some .POST) (some [("id_project", .prim (.str "7"))]) []
      ⟨"attach[0]", "a.png", none, some [7], some "https://files.example.com/a.png"⟩ []
      (by simp)).1 rfl rfl
    simpa using h
  · have h := (claim_C5_attachment_exclusivity ⟨"https://acme.worksection.com/", "secret", none⟩
      (fun r => r) (fun u => .netError "unreachable") (fun r => .netError "unreachable")
      "post_task" (some .POST) (some [("id_project", .prim (.str "7"))]) []
      ⟨"attach[0]", "b.png", none, none, none⟩ []
      (by simp)).2 rfl rfl
    simpa using h

/-- **C7 counterexample**: resolving a remote attachment from
`https://files.example.com/a.png` against a 404 response raises
`Downloading attachment failed (404): Not Found` — an error message that
does **not** name the URL, refuting the claim that every failure outcome
names it. -/
theorem claim_C7_counterexample :
    (fetchRemoteAttachment ⟨"https://acme.worksection.com/", "secret", none⟩
        (fun u => .response 404 "Not Found" []) "https://files.example.com/a.png").1
      = .error ⟨"Downloading attachment failed (404): Not Found", none⟩
    ∧ ¬ List.IsInfix "https://files.example.com/a.png".toList
        "Downloading attachment failed (404): Not Found".toList :=
  ⟨rfl, by decide⟩

/-- **C7 (amended)**: when resolving a remote-URL attachment, a network
failure raises an error naming the URL and the underlying cause, a non-2xx
response raises an error naming the numeric status and status text (but not
the URL), and a zero-length body raises an error naming the URL (but not the
status); the fetch carries an `Authorization: Bearer` header exactly when a
bearer token is configured, and a non-empty 2xx body resolves to the bytes. -/
theorem claim_C7_remote_fetch_amended (cfg : Config) (oracle : String → FetchOutcome)
    (url msg statusText : String) (status : Nat) (body : List Nat) :
    ((fetchRemoteAttachment cfg oracle url).2
        = ⟨url, if strTruthy cfg.slackBotToken then
            [("Authorization", "Bearer " ++ cfg.slackBotToken.getD "")] else []⟩)
    ∧ (oracle url = .netError msg →
        (fetchRemoteAttachment cfg oracle url).1
          = .error ⟨"Failed to download attachment from " ++ url ++ ": " ++ msg, none⟩)
    ∧ (oracle url = .response status statusText body → statusOk status = false →
        (fetchRemoteAttachment cfg oracle url).1
          = .error ⟨"Downloading attachment failed (" ++ toString status ++ "): "
              ++ statusText, none⟩)
    ∧ (oracle url = .response status statusText [] → statusOk status = true →
        (fetchRemoteAttachment cfg oracle url).1
          = .error ⟨"Attachment at " ++ url ++ " is empty.", none⟩)
    ∧ (oracle url = .response status statusText body → statusOk status = true →
        body ≠ [] → (fetchRemoteAttachment cfg oracle url).1 = .ok body) := by
  refine ⟨?_, fun ho => ?_, fun ho hs => ?_, fun ho hs => ?_, fun ho hs hb => ?_⟩
  · rcases ho : oracle url with msg' | ⟨status', st', body'⟩
    · simp [fetchRemoteAttachment, ho]
    · simp only [fetchRemoteAttachment, ho]
      split
      · rfl
      · split <;> rfl
  · simp [fetchRemoteAttachment, ho]
  · simp [fetchRemoteAttachment, ho, hs]
  · simp [fetchRemoteAttachment, ho, hs]
  · have hlen : body.length ≠ 0 := by simpa [List.length_eq_zero] using hb
    simp [fetchRemoteAttachment, ho, hs, hlen]

/-- Witness for C7 (amended) at concrete inputs: with a bearer token
configured the fetch carries the Authorization header; a rejected fetch
names the URL, an empty 200 body names the URL, a 2xx body resolves. -/
theorem claim_C7_remote_fetch_amended_witness :
    (fetchRemoteAttachment ⟨"https://acme.worksection.com/", "secret", some "xoxb-1"⟩
        (fun u => .netError "ECONNRESET") "https://files.example.com/a.png").2
      = ⟨"https://files.example.com/a.png", [("Authorization", "Bearer xoxb-1")]⟩
    ∧ (fetchRemoteAttachment ⟨"https://acme.worksection.com/", "secret", some "xoxb-1"⟩
        (fun u => .netError "ECONNRESET") "https://files.example.com/a.png").1
      = .error ⟨"Failed to download attachment from https://files.example.com/a.png: ECONNRESET",
          none⟩
    ∧ (fetchRemoteAttachment ⟨"https://acme.worksection.com/", "secret", none⟩
        (fun u => .response 200 "OK" []) "https://files.example.com/b.png").1
      = .error ⟨"Attachment at https://files.example.com/b.png is empty.", none⟩
    ∧ (fetchRemoteAttachment ⟨"https://acme.worksection.com/", "secret", none⟩
        (fun u => .response 200 "OK" [9, 8]) "https://files.example.com/c.png").1
      = .ok [9, 8] := by
  refine ⟨?_, ?_, ?_, ?_⟩
  · have h := (claim_C7_remote_fetch_amended
      ⟨"https://acme.worksection.com/", "secret", some "xoxb-1"⟩
      (fun u => .netError "ECONNRESET") "https://files.example.com/a.png"
      "ECONNRESET" "" 0 []).1
    simpa using h
  · have h := (claim_C7_remote_fetch_amended
      ⟨"https://acme.worksection.com/", "secret", some "xoxb-1"⟩
      (fun u => .netError "ECONNRESET") "https://files.example.com/a.png"
      "ECONNRESET" "" 0 []).2.1 rfl
    simpa using h
  · exact (claim_C7_remote_fetch_amended ⟨"https://acme.worksection.com/", "secret", none⟩
      (fun u => .response 200 "OK" []) "https://files.example.com/b.png"
      "" "OK" 200 []).2.2.2.1 rfl rfl
  · exact (claim_C7_remote_fetch_amended ⟨"https://acme.worksection.com/", "secret", none⟩
      (fun u => .response 200 "OK" [9, 8]) "https://files.example.com/c.png"
      "" "OK" 200 [9, 8]).2.2.2.2 rfl rfl (by decide)

/-- **C8**: invoking the `post_task` write operation with one inline
attachment whose base64 data decodes to zero bytes raises the
attachment-resolution error naming that attachment's filename and sends no
HTTP request (empty network trace); likewise a base64 decode failure raises
a caller error naming the filename, again with no request sent.  The
filename is an infix of the error message. -/
theorem claim_C8_empty_inline_attachment (cfg : Config) (digest : String → String)
    (fOracle : String → FetchOutcome) (aOracle : Request → ApiOutcome)
    (params : RequestParams) (filename s : String) (su ct : Option String)
    (decode : String → Option (List Nat)) :
    (s ≠ "" → decode s = some [] →
      postTaskModel cfg digest fOracle aOracle params
          (some [⟨filename, some s, su, ct⟩]) decode
        = (.error ⟨"Attachment \"" ++ filename
            ++ "\" is empty or not valid base64 data.", none⟩, []))
    ∧ (s ≠ "" → decode s = none →
      postTaskModel cfg digest fOracle aOracle params
          (some [⟨filename, some s, su, ct⟩]) decode
        = (.error ⟨"Attachment \"" ++ filename
            ++ "\" data must be valid base64.", none⟩, []))
    ∧ List.IsInfix filename.toList
        ("Attachment \"" ++ filename ++ "\" is empty or not valid base64 data.").toList := by
  refine ⟨fun hs hdec => ?_, fun hs hdec => ?_, ?_⟩
  · have hst : strTruthy (some s) = true := by simpa [strTruthy] using hs
    simp [postTaskModel, postTaskAttachmentsGo, postTaskAttachmentAt, hst, hdec,
      Except.instMonad, Except.bind, Except.map]
  · have hst : strTruthy (some s) = true := by simpa [strTruthy] using hs
    simp [postTaskModel, postTaskAttachmentsGo, postTaskAttachmentAt, hst, hdec,
      Except.instMonad, Except.bind, Except.map]
  · exact ⟨"Attachment \"".toList, "\" is empty or not valid base64 data.".toList, rfl⟩

/-- Witness for C8: a concrete attachment `report.pdf` whose data decodes to
zero bytes aborts `post_task` with the naming error and an empty trace, and
one whose decode fails aborts with the base64 error. -/
theorem claim_C8_empty_inline_attachment_witness :
    postTaskModel ⟨"https://acme.worksection.com/", "secret", none⟩ (fun r => r)
        (fun u => .netError "unreachable") (fun r => .netError "unreachable")
        [("id_project", .prim (.str "7")), ("title", .prim (.str "T"))]
        (some [⟨"report.pdf", some "!!!!", none, none⟩]) (fun d => some [])
      = (.error ⟨"Attachment \"report.pdf\" is empty or not valid base64 data.", none⟩, [])
    ∧ postTaskModel ⟨"https://acme.worksection.com/", "secret", none⟩ (fun r => r)
        (fun u => .netError "unreachable") (fun r => .netError "unreachable")
        [("id_project", .prim (.str "7")), ("title", .prim (.str "T"))]
        (some [⟨"report.pdf", some "!!!!", none, none⟩]) (fun d => none)
      = (.error ⟨"Attachment \"report.pdf\" data must be valid base64.", none⟩, []) := by
  constructor
  · have h := (claim_C8_empty_inline_attachment ⟨"https://acme.worksection.com/", "secret", none⟩
      (fun r => r) (fun u => .netError "unreachable") (fun r => .netError "unreachable")
      [("id_project", .prim (.str "7")), ("title", .prim (.str "T"))]
      "report.pdf" "!!!!" none none (fun d => some [])).1 (by decide) rfl
    simpa using h
  · have h := (claim_C8_empty_inline_attachment ⟨"https://acme.worksection.com/", "secret", none⟩
      (fun r => r) (fun u => .netError "unreachable") (fun r => .netError "unreachable")
      [("id_project", .prim (.str "7")), ("title", .prim (.str "T"))]
      "report.pdf" "!!!!" none none (fun d => none)).2.1 (by decide) rfl
    simpa using h

/-- **C9**: a call with at least one resolved attachment puts the signed
key/value pairs — the trailing `hash` field included — both in the request
URL's query string and, duplicated, as form fields of the multipart body
placed before the binary parts; each part's content type defaults to
`application/octet-stream` when none is specified. -/
theorem claim_C9_multipart_duplication (cfg : Config) (digest : String → String)
    (action : String) (m : Option Method) (params : RequestParams)
    (attachments : List AttachmentPayload) :
    attachments ≠ [] →
      (assembleRequest cfg digest action m params attachments).search
          = serializeForm (signedEncoded cfg digest action params)
        ∧ (assembleRequest cfg digest action m params attachments).body
            = some (.multipart (signedEncoded cfg digest action params)
                (attachments.map fun a =>
                  ⟨a.field, a.filename, a.contentType.getD "application/octet-stream", a.data⟩))
        ∧ (signedEncoded cfg digest action params).getLast?
            = some ("hash", digest ((buildParamState action params).2 ++ cfg.apiKey)) := by
  intro h
  have hl : 0 < attachments.length := List.length_pos.mpr h
  refine ⟨by simp [assembleRequest, hl], by simp [assembleRequest, hl], ?_⟩
  simp [signedEncoded]

/-- Witness for C9: a concrete one-attachment call whose multipart fields
equal the signed pairs also found in the query string, the binary part
carrying the default content type. -/
theorem claim_C9_multipart_duplication_witness :
    (assembleRequest ⟨"https://acme.worksection.com/", "secret", none⟩ (fun r => r)
        "post_task" (some .GET) [("title", .prim (.str "T"))]
        [⟨"attach[0]", "f.bin", [1, 2], none⟩]).search
      = serializeForm (signedEncoded ⟨"https://acme.worksection.com/", "secret", none⟩
          (fun r => r) "post_task" [("title", .prim (.str "T"))])
    ∧ (assembleRequest ⟨"https://acme.worksection.com/", "secret", none⟩ (fun r => r)
        "post_task" (some .GET) [("title", .prim (.str "T"))]
        [⟨"attach[0]", "f.bin", [1, 2], none⟩]).body
      = some (.multipart
          (signedEncoded ⟨"https://acme.worksection.com/", "secret", none⟩
            (fun r => r) "post_task" [("title", .prim (.str "T"))])
          [⟨"attach[0]", "f.bin", "application/octet-stream", [1, 2]⟩]) := by
  have h := claim_C9_multipart_duplication ⟨"https://acme.worksection.com/", "secret", none⟩
    (fun r => r) "post_task" (some .GET) [("title", .prim (.str "T"))]
    [⟨"attach[0]", "f.bin", [1, 2], none⟩] (by simp)
  exact ⟨h.1, h.2.1⟩

/-- The store-threaded attachment loop only reads: it equals the plain loop
applied to the dereferenced descriptors and leaves the store untouched. -/
theorem prepareAttachmentsGoH_reads (cfg : Config) (oracle : String → FetchOutcome)
    (h : Heap) (addrs : List Nat) :
    prepareAttachmentsGoH cfg oracle h addrs
      = (prepareAttachmentsGo cfg oracle (addrs.map h.readAttachment), h) := by
  induction addrs with
  | nil => rfl
  | cons addr rest ih =>
    simp only [prepareAttachmentsGoH, prepareAttachmentsGo, List.map_cons, ih]
    split
    · rfl
    · split
      · rfl
      · rfl
      · rcases hgo : prepareAttachmentsGo cfg oracle (rest.map h.readAttachment)
          with ⟨res, evs2⟩
        rcases res with e | payloads <;> simp [hgo]

/-- Appending one element to the params store: the new cell is read back as
the appended entries. -/
theorem paramObjs_concat_read (l : List RequestParams) (entries : RequestParams) :
    ((l ++ [entries])[l.length]?).getD [] = entries := by
  simp

/-- **C10**: `call` never mutates its caller-supplied inputs — for every
invocation over the explicit object store, whether the result is a success
or an error, the attachments array and every attachment descriptor are
untouched and the params store only grows by the fresh shallow copy
(`{...(params ?? {})}`), every pre-existing cell keeping its contents; and
the store-threaded run returns exactly what the value-level `call` model
returns on the dereferenced inputs. -/
theorem claim_C10_no_input_mutation (cfg : Config) (digest : String → String)
    (fOracle : String → FetchOutcome) (aOracle : Request → ApiOutcome)
    (action : String) (method : Option Method) (h : Heap)
    (paramsAddr attachmentsAddr : Option Nat) :
    (callModelH cfg digest fOracle aOracle action method h paramsAddr attachmentsAddr).2.attachArrs
        = h.attachArrs
    ∧ (callModelH cfg digest fOracle aOracle action method h paramsAddr attachmentsAddr).2.attachObjs
        = h.attachObjs
    ∧ List.IsPrefix h.paramObjs
        (callModelH cfg digest fOracle aOracle action method h paramsAddr attachmentsAddr).2.paramObjs
    ∧ (callModelH cfg digest fOracle aOracle action method h paramsAddr attachmentsAddr).1
        = callModel cfg digest fOracle aOracle action
            ⟨method, h.readParams paramsAddr, h.readAttachArr attachmentsAddr⟩ := by
  rcases attachmentsAddr with _ | arr
  · refine ⟨rfl, rfl, ⟨[_], rfl⟩, ?_⟩
    simp only [callModelH, callModel, prepareAttachments, Heap.readParams, Heap.readAttachArr,
      paramObjs_concat_read, prepareParams, Option.map]
    rcases paramsAddr with _ | a <;> simp [prepareParams]
  · simp only [callModelH, Heap.readAttachArr, Option.map, prepareAttachmentsGoH_reads]
    rcases hgo : prepareAttachmentsGo cfg fOracle
        (((h.attachArrs[arr]?).getD []).map h.readAttachment) with ⟨res, evs⟩
    rcases res with e | payloads
    · exact ⟨rfl, rfl, List.prefix_refl _, by
        simp [callModel, prepareAttachments, hgo]⟩
    · refine ⟨rfl, rfl, ⟨[_], rfl⟩, ?_⟩
      simp only [paramObjs_concat_read]
      simp only [callModel, prepareAttachments, hgo, Heap.readParams, prepareParams]
      rcases paramsAddr with _ | a <;> simp [hgo]

end Worksection
